import Mathlib

unseal Rat.add Rat.mul Rat.inv Rat.sub Rat.ofScientific

set_option maxRecDepth 100000

set_option maxHeartbeats 4000000

/-!
Verification of the mcp-meta-server runtime subsystem: a shallow embedding of
the TypeScript sources (deduplication similarity kernel, caching system,
discovery validation, and the meta-server dispatch paths) together with
theorems settling the specification claims.

Conventions: JavaScript `Map` objects are modelled as insertion-ordered
association lists; JavaScript numbers used for scores, rates and times are
modelled as `Rat`; `Date.now()` is passed explicitly as a `now` argument.
-/

mutual

/-- JSON values as produced and consumed by the sources. Object fields keep
their insertion order, as JavaScript objects do. Numbers are restricted to
integers, which covers every value the embedded code paths construct. -/
inductive Json where
  | null : Json
  | bool (b : Bool) : Json
  | num (n : Int) : Json
  | str (s : String) : Json
  | arr (elems : JsonArray) : Json
  | obj (fields : JsonObject) : Json
deriving DecidableEq, Repr

/-- The element list of a JSON array. -/
inductive JsonArray where
  | nil : JsonArray
  | cons (head : Json) (tail : JsonArray) : JsonArray
deriving DecidableEq, Repr

/-- The field list of a JSON object, in insertion order. -/
inductive JsonObject where
  | nil : JsonObject
  | cons (key : String) (value : Json) (tail : JsonObject) : JsonObject
deriving DecidableEq, Repr

end

/-- Number of fields of a JSON object. -/
def JsonObject.size : JsonObject → Nat
  | .nil => 0
  | .cons _ _ tl => tl.size + 1

/-- Field access `obj[key]` in insertion order (`undefined` is `none`). -/
def JsonObject.lookupField : JsonObject → String → Option Json
  | .nil, _ => none
  | .cons k v tl, key => if k = key then some v else tl.lookupField key

/-- Escape of one character inside a JSON string literal, as JSON.stringify
performs it for the characters our inputs can contain. -/
def jsonEscapeChar (c : Char) : String :=
  if c = '"' then "\\\""
  else if c = '\\' then "\\\\"
  else if c = '\n' then "\\n"
  else if c = '\t' then "\\t"
  else if c = '\r' then "\\r"
  else String.mk [c]

/-- Escape of a whole string body for JSON.stringify. -/
def jsonEscape (s : String) : String :=
  String.join (s.data.map jsonEscapeChar)

mutual

/-- JavaScript `JSON.stringify` (no spacing argument): object keys are emitted
in insertion order, with no whitespace. -/
def Json.stringify : Json → String
  | .null => "null"
  | .bool true => "true"
  | .bool false => "false"
  | .num n => toString n
  | .str s => "\"" ++ jsonEscape s ++ "\""
  | .arr elems => "[" ++ JsonArray.stringifyElems elems ++ "]"
  | .obj fields => "\x7b" ++ JsonObject.stringifyFields fields ++ "\x7d"

/-- Comma-separated serialization of array elements, in order. -/
def JsonArray.stringifyElems : JsonArray → String
  | .nil => ""
  | .cons hd .nil => Json.stringify hd
  | .cons hd tl => Json.stringify hd ++ "," ++ JsonArray.stringifyElems tl

/-- Comma-separated serialization of object fields, in insertion order. -/
def JsonObject.stringifyFields : JsonObject → String
  | .nil => ""
  | .cons k v .nil => "\"" ++ jsonEscape k ++ "\":" ++ Json.stringify v
  | .cons k v tl =>
      "\"" ++ jsonEscape k ++ "\":" ++ Json.stringify v ++ "," ++ JsonObject.stringifyFields tl

end

/-- JavaScript truthiness of a value, as used by `if (cachedResult)` and
`params && typeof params === 'object'` in the sources. -/
def Json.isTruthy : Json → Bool
  | .null => false
  | .bool b => b
  | .num n => n ≠ 0
  | .str s => s ≠ ""
  | .arr _ => true
  | .obj _ => true

/-- Whether `params && typeof params === 'object'` holds: objects and arrays
qualify, `null` is excluded by the truthiness guard. -/
def Json.isObjectLike : Json → Bool
  | .arr _ => true
  | .obj _ => true
  | _ => false

mutual

/-- Equality of JSON values irrespective of object key insertion order: the
notion of "equal as JSON values (same keys and values at every level)" used by
claim C3. Objects must have the same number of keys and every field of the
first must match a field of the second. -/
def Json.jsonEqual : Json → Json → Bool
  | .null, .null => true
  | .bool a, .bool b => a = b
  | .num a, .num b => a = b
  | .str a, .str b => a = b
  | .arr a, .arr b => JsonArray.jsonEqualElems a b
  | .obj a, .obj b => a.size = b.size && JsonObject.jsonEqualFields a b
  | _, _ => false

/-- Pointwise order-respecting equality of array elements. -/
def JsonArray.jsonEqualElems : JsonArray → JsonArray → Bool
  | .nil, .nil => true
  | .cons x xs, .cons y ys => Json.jsonEqual x y && JsonArray.jsonEqualElems xs ys
  | _, _ => false

/-- Every field of the first object has a matching field in the second. -/
def JsonObject.jsonEqualFields : JsonObject → JsonObject → Bool
  | .nil, _ => true
  | .cons k v tl, other =>
      (match other.lookupField k with
       | some w => Json.jsonEqual v w
       | none => false)
      && JsonObject.jsonEqualFields tl other

end

/-- Whether `pat` occurs as a leading segment of `l`. -/
def listStartsWith : List Char → List Char → Bool
  | _, [] => true
  | [], _ :: _ => false
  | a :: as, b :: bs => b = a && listStartsWith as bs

/-- JavaScript `String.prototype.includes`: `pat` occurs contiguously in `l`. -/
def listContainsSeg (l pat : List Char) : Bool :=
  match l with
  | [] => pat.isEmpty
  | _ :: tl => listStartsWith l pat || listContainsSeg tl pat

/-- JavaScript `String.prototype.includes` on strings. -/
def strIncludes (s pat : String) : Bool :=
  listContainsSeg s.data pat.data

/-- JavaScript `toLowerCase` on the ASCII strings our inputs consist of. -/
def strToLower (s : String) : String :=
  String.mk (s.data.map Char.toLower)

/-- Helper for `min` on `Rat` written with an explicit comparison so that kernel
reduction can evaluate it. -/
def ratMinOf (a b : Rat) : Rat :=
  if a ≤ b then a else b

/-- Helper for `max` on `Rat` written with an explicit comparison. -/
def ratMaxOf (a b : Rat) : Rat :=
  if a ≤ b then b else a

/-- Helper for `min` on `Int` written with an explicit comparison. -/
def intMinOf (a b : Int) : Int :=
  if a ≤ b then a else b

/-- Helper for `min` on `Nat` written with an explicit comparison. -/
def natMinOf (a b : Nat) : Nat :=
  if a ≤ b then a else b

/-- Helper for `max` on `Int` written with an explicit comparison. -/
def intMaxOf (a b : Int) : Int :=
  if a ≤ b then b else a

/-- Embedding of `ToolDeduplicationSystem.commonPrefixLength` (yt-researcher.ts lines
308-318): length of the longest common prefix of the two strings. -/
def commonPrefixLength : List Char → List Char → Nat
  | c1 :: r1, c2 :: r2 => if c1 = c2 then commonPrefixLength r1 r2 + 1 else 0
  | _, _ => 0

/-- The Jaro match window `floor(max(|s1|,|s2|)/2) - 1`; it is `-1` when the
longer string has length 1, so it must live in `Int`. -/
def matchWindow (n1 n2 : Nat) : Int :=
  (if n1 ≤ n2 then (n2 : Int) else (n1 : Int)) / 2 - 1

/-- Scan of the inner `for (let j = start; j < end; j++)` loop of
`jaroSimilarity`: first index `j` with `start ≤ j < stop` whose character in
`s2` equals `c` and is not yet matched. `s2m` pairs each character of `s2`
with its matched flag; `j` is the index of the current head. -/
def findMatchIndex (c : Char) : List (Char × Bool) → Int → Int → Int → Option Nat
  | [], _, _, _ => none
  | (ch, taken) :: rest, j, start, stop =>
      if start ≤ j ∧ j < stop ∧ taken = false ∧ ch = c then some j.toNat
      else findMatchIndex c rest (j + 1) start stop

/-- The outer matching loop of `jaroSimilarity` (yt-researcher.ts lines
280-292): walks `s1` with index `i`, marking at most one match in `s2` per
character. Returns the match flags for `s1` (in order) and the final match
flags for `s2`. -/
def jaroFindMatches (s2 : List Char) (w : Int) : List Char → Int → List Bool → List Bool × List Bool
  | [], _, m2 => ([], m2)
  | c :: rest, i, m2 =>
      let start := intMaxOf 0 (i - w)
      let stop := intMinOf (i + w + 1) (s2.length : Int)
      match findMatchIndex c (s2.zip m2) 0 start stop with
      | some j =>
          let p := jaroFindMatches s2 w rest (i + 1) (m2.set j true)
          (true :: p.1, p.2)
      | none =>
          let p := jaroFindMatches s2 w rest (i + 1) m2
          (false :: p.1, p.2)

/-- The characters of `s` at matched positions, in order. The transposition
loop of `jaroSimilarity` (lines 297-303) walks exactly these two sequences in
lockstep with its `k` pointer. -/
def matchedChars (s : List Char) (m : List Bool) : List Char :=
  ((s.zip m).filter (fun p => p.2)).map (fun p => p.1)

/-- Embedding of `ToolDeduplicationSystem.jaroSimilarity` (yt-researcher.ts lines 269-306)
over the characters of the two strings. -/
def jaroSimilarity (s1 s2 : List Char) : Rat :=
  if s1.length = 0 ∧ s2.length = 0 then 1
  else if s1.length = 0 ∨ s2.length = 0 then 0
  else
    let w := matchWindow s1.length s2.length
    let p := jaroFindMatches s2 w s1 0 (List.replicate s2.length false)
    let matchCount := (p.1.filter (fun b => b)).length
    if matchCount = 0 then 0
    else
      let transpositions :=
        (((matchedChars s1 p.1).zip (matchedChars s2 p.2)).filter
          (fun q => q.1 ≠ q.2)).length
      ((matchCount : Rat) / s1.length + (matchCount : Rat) / s2.length
        + ((matchCount : Rat) - (transpositions : Rat) / 2) / matchCount) / 3

/-- Embedding of `ToolDeduplicationSystem.calculateStringSimilarity` (yt-researcher.ts lines
255-267). Note the guard `if (!str1 || !str2) return 0` fires for empty
strings (they are falsy) before the equality check, so two empty strings score
0 even though `jaroSimilarity` itself would return 1 for them. -/
def calculateStringSimilarity (str1 str2 : String) : Rat :=
  if str1 = "" ∨ str2 = "" then 0
  else if str1 = str2 then 1
  else
    let l1 := (strToLower str1).data
    let l2 := (strToLower str2).data
    let jaro := jaroSimilarity l1 l2
    let prefixLength := natMinOf 4 (commonPrefixLength l1 l2)
    ratMinOf 1 (jaro + (1 / 10) * (prefixLength : Rat) * (1 - jaro))

/-- A downstream tool as advertised by a provider: `Tool` of the MCP SDK as
used by the sources (`name`, optional `description`, `inputSchema`). The
schema is optional so that the falsy guard of `calculateSchemaSimilarity` can
be expressed. -/
structure Tool where
  name : String
  description : Option String
  inputSchema : Option Json
deriving DecidableEq, Repr

/-- A `{ serverId; tool }` entry, the element type of the lists fed to
`ToolDeduplicationSystem.mergeTools`. -/
structure ServerTool where
  serverId : String
  tool : Tool
deriving DecidableEq, Repr

/-- Embedding of `DeduplicationConfig` (yt-researcher.ts lines 23-30). -/
structure DeduplicationConfig where
  enabled : Bool
  similarityThreshold : Rat
  autoMerge : Bool
  nameWeight : Rat
  descriptionWeight : Rat
  schemaWeight : Rat
deriving DecidableEq, Repr

/-- The defaults of `ToolDeduplicationSystem.config` (lines 33-40). -/
def defaultDedupConfig : DeduplicationConfig :=
  { enabled := true, similarityThreshold := 8 / 10, autoMerge := true,
    nameWeight := 4 / 10, descriptionWeight := 35 / 100, schemaWeight := 25 / 100 }

/-- The `mergeStrategy` field of `ToolSimilarity`. -/
inductive MergeStrategy where
  | name : MergeStrategy
  | description : MergeStrategy
  | schema : MergeStrategy
  | hybrid : MergeStrategy
deriving DecidableEq, Repr

/-- Embedding of `ToolSimilarity` (yt-researcher.ts lines 11-15). -/
structure ToolSimilarity where
  score : Rat
  reason : String
  mergeStrategy : MergeStrategy
deriving DecidableEq, Repr

/-- Field access `j.key` on a JSON value (`undefined` is `none`). -/
def Json.getField : Json → String → Option Json
  | .obj fields, key => fields.lookupField key
  | _, _ => none

/-- The elements of a JSON array as a Lean list. -/
def JsonArray.toList : JsonArray → List Json
  | .nil => []
  | .cons hd tl => hd :: tl.toList

/-- The fields of a JSON object as a Lean list, in insertion order. -/
def JsonObject.toList : JsonObject → List (String × Json)
  | .nil => []
  | .cons k v tl => (k, v) :: tl.toList

/-- The `schema.required || []` array of a schema, kept as JSON values the way
the source's `includes` comparisons see them. -/
def schemaRequired (schema : Json) : List Json :=
  match schema.getField "required" with
  | some (.arr elems) => elems.toList
  | _ => []

/-- Embedding of `ToolDeduplicationSystem.extractSchemaProperties` (yt-researcher.ts lines
350-365): the `(name, type, required)` triples of `schema.properties`, with a
missing or falsy `type` replaced by `"unknown"`. -/
def extractSchemaProperties (schema : Json) : List (String × String × Bool) :=
  match schema.getField "properties" with
  | some (.obj fields) =>
      let required := schemaRequired schema
      fields.toList.map (fun p =>
        let ty := match p.2.getField "type" with
          | some (.str t) => if t = "" then "unknown" else t
          | _ => "unknown"
        (p.1, ty, required.contains (Json.str p.1)))
  | _ => []

/-- Embedding of `ToolDeduplicationSystem.calculateSchemaSimilarity` (yt-researcher.ts lines
320-348). A falsy (missing) schema on either side scores 0; deep-equal
schemas (by JSON.stringify) short-circuit to 1; otherwise the weighted
combination `0.7 * propSimilarity + 0.3 * requiredSimilarity`. -/
def calculateSchemaSimilarity : Option Json → Option Json → Rat
  | none, _ => 0
  | _, none => 0
  | some schema1, some schema2 =>
      if schema1.stringify = schema2.stringify then 1
      else
        let props1 := extractSchemaProperties schema1
        let props2 := extractSchemaProperties schema2
        if props1.length = 0 ∧ props2.length = 0 then 1
        else if props1.length = 0 ∨ props2.length = 0 then 0
        else
          let commonProps := props1.filter (fun p1 =>
            props2.any (fun p2 => p1.1 = p2.1 ∧ p1.2.1 = p2.2.1))
          let propSimilarity := (2 * commonProps.length : Rat) / ((props1.length : Rat) + props2.length)
          let required1 := schemaRequired schema1
          let required2 := schemaRequired schema2
          let commonRequired := required1.filter (fun r => required2.contains r)
          let requiredSimilarity :=
            if required1.length + required2.length > 0 then
              (2 * commonRequired.length : Rat) / ((required1.length : Rat) + required2.length)
            else 1
          propSimilarity * (7 / 10) + requiredSimilarity * (3 / 10)

/-- Embedding of `ToolDeduplicationSystem.determineMergeStrategy` (yt-researcher.ts lines
367-372). -/
def determineMergeStrategy (nameScore descScore schemaScore : Rat) : MergeStrategy :=
  if nameScore > 9 / 10 ∧ schemaScore > 8 / 10 then .name
  else if descScore > 8 / 10 ∧ schemaScore > 7 / 10 then .description
  else if schemaScore > 9 / 10 then .schema
  else .hybrid

/-- Embedding of `ToolDeduplicationSystem.analyzeSimilarity` (yt-researcher.ts lines 48-78):
the configured weighted sum of name, description and schema similarity,
together with the reason text and merge strategy. -/
def analyzeSimilarity (cfg : DeduplicationConfig) (tool1 tool2 : Tool) : ToolSimilarity :=
  let nameScore := calculateStringSimilarity tool1.name tool2.name
  let descScore := calculateStringSimilarity
    (tool1.description.getD "") (tool2.description.getD "")
  let schemaScore := calculateSchemaSimilarity tool1.inputSchema tool2.inputSchema
  let score := nameScore * cfg.nameWeight + descScore * cfg.descriptionWeight
    + schemaScore * cfg.schemaWeight
  let reasons :=
    (if nameScore > 8 / 10 then ["similar names"] else [])
    ++ (if descScore > 7 / 10 then ["similar descriptions"] else [])
    ++ (if schemaScore > 8 / 10 then ["similar schemas"] else [])
  { score,
    reason := if reasons.length > 0 then String.intercalate ", " reasons
      else "no significant similarities",
    mergeStrategy := determineMergeStrategy nameScore descScore schemaScore }

/-- Embedding of `MergedTool` (yt-researcher.ts lines 17-21): a `Tool` surface plus the
member list, merge confidence and primary server id. -/
structure MergedTool where
  name : String
  description : Option String
  inputSchema : Option Json
  originalTools : List ServerTool
  confidence : Rat
  serverId : String
deriving DecidableEq, Repr

/-- The `Tool` part of a merged tool, which is what the upstream tool listing
and a re-run of deduplication see. -/
def MergedTool.toolSurface (m : MergedTool) : Tool :=
  { name := m.name, description := m.description, inputSchema := m.inputSchema }

/-- Embedding of `ToolDeduplicationSystem.selectBestTool` (yt-researcher.ts lines 374-387):
`reduce` keeping the entry with the strictly longest description, ties keeping
the earlier entry. -/
def selectBestTool (hd : ServerTool) (tl : List ServerTool) : ServerTool :=
  tl.foldl (fun best current =>
    if (current.tool.description.getD "").length > (best.tool.description.getD "").length
    then current else best) hd

/-- The distinct elements of a list in order of first occurrence: the key set
of the JavaScript `Map` built by `generateMergedName`. -/
def distinctInOrder (l : List String) : List String :=
  l.foldl (fun acc n => if acc.contains n then acc else acc ++ [n]) []

/-- Embedding of `ToolDeduplicationSystem.generateMergedName` (yt-researcher.ts lines
389-403): the most frequent member name; on ties the stable descending sort
keeps the first-encountered name. -/
def generateMergedName (group : List ServerTool) : String :=
  let names := group.map (fun t => t.tool.name)
  let counted := (distinctInOrder names).map (fun n => (n, (names.filter (fun m => m = n)).length))
  match counted with
  | [] => ""
  | c :: rest => (rest.foldl (fun best cur => if cur.2 > best.2 then cur else best) c).1

/-- Embedding of `ToolDeduplicationSystem.generateMergedDescription` (yt-researcher.ts lines
405-417): the longest non-empty member description, ties keeping the first;
a fixed placeholder when none exists. -/
def generateMergedDescription (group : List ServerTool) : String :=
  let descriptions := (group.filterMap (fun t => t.tool.description)).filter
    (fun d => d.length > 0)
  match descriptions with
  | [] => "Merged tool from multiple servers"
  | d :: rest => rest.foldl (fun longest current =>
      if current.length > longest.length then current else longest) d

/-- Construction of the output group of one pass of the merge loop
(yt-researcher.ts lines 113-139): a merged tool when the group has more than
one member, the member itself (in `MergedTool` form, confidence 1) otherwise. -/
def mkMergedGroup (hd : ServerTool) (attached : List ServerTool)
    (sims : List ToolSimilarity) : MergedTool :=
  let group := hd :: attached
  if group.length > 1 then
    let bestTool := selectBestTool hd attached
    let confidence :=
      if sims.length > 0 then
        (sims.foldl (fun s x => s + x.score) 0) / (sims.length : Rat)
      else 1
    { name := generateMergedName group,
      description := some (generateMergedDescription group),
      inputSchema := bestTool.tool.inputSchema,
      originalTools := group,
      confidence,
      serverId := bestTool.serverId }
  else
    { name := hd.tool.name, description := hd.tool.description,
      inputSchema := hd.tool.inputSchema, originalTools := [hd],
      confidence := 1, serverId := hd.serverId }

/-- Whether the second entry's similarity to the first entry's tool reaches
the configured merge threshold (`similarity.score >= similarityThreshold`). -/
def reachesThreshold (cfg : DeduplicationConfig) (t u : ServerTool) : Bool :=
  (analyzeSimilarity cfg t.tool u.tool).score ≥ cfg.similarityThreshold

/-- The greedy single-pass grouping of `ToolDeduplicationSystem.mergeTools`
(yt-researcher.ts lines 90-142): the first unprocessed entry seeds a group,
every later unprocessed entry whose similarity to the seed reaches the
threshold is attached and marked processed, and the loop continues on the
untouched remainder. The `fuel` argument bounds the number of groups (one
unit per list element suffices) and only makes the recursion structural. -/
def greedyMergeAux (cfg : DeduplicationConfig) : Nat → List ServerTool → List MergedTool
  | _, [] => []
  | 0, _ :: _ => []
  | fuel + 1, t :: rest =>
      let attached := rest.filter (fun u => reachesThreshold cfg t u)
      let remaining := rest.filter (fun u => ! reachesThreshold cfg t u)
      mkMergedGroup t attached (attached.map (fun u => analyzeSimilarity cfg t.tool u.tool))
        :: greedyMergeAux cfg fuel remaining

/-- The greedy pass started with enough fuel for its worklist. -/
def greedyMergeLoop (cfg : DeduplicationConfig) (tools : List ServerTool) : List MergedTool :=
  greedyMergeAux cfg tools.length tools

/-- Whether the second entry's name similarity to the first entry's tool
exceeds the 0.6 pre-grouping threshold of the clustering path. -/
def nameSimilarAbove (t u : ServerTool) : Bool :=
  calculateStringSimilarity t.tool.name u.tool.name > 3 / 5

/-- Embedding of `ToolDeduplicationSystem.groupToolsByNameSimilarity` (yt-researcher.ts
lines 223-253): fast pre-grouping by name similarity above 0.6. The `fuel`
argument only makes the recursion structural. -/
def groupByNameAux : Nat → List ServerTool → List (List ServerTool)
  | _, [] => []
  | 0, _ :: _ => []
  | fuel + 1, t :: rest =>
      let grouped := rest.filter (fun u => nameSimilarAbove t u)
      let remaining := rest.filter (fun u => ! nameSimilarAbove t u)
      (t :: grouped) :: groupByNameAux fuel remaining

/-- The pre-grouping pass started with enough fuel for its worklist. -/
def groupToolsByNameSimilarity (tools : List ServerTool) : List (List ServerTool) :=
  groupByNameAux tools.length tools

/-- Embedding of `ToolDeduplicationSystem.mergeToolsWithClustering` (yt-researcher.ts lines
146-220): pre-group by name similarity, then run the detailed greedy pass
inside each pre-group (a singleton pre-group is emitted directly). -/
def mergeToolsWithClustering (cfg : DeduplicationConfig)
    (tools : List ServerTool) : List MergedTool :=
  ((groupToolsByNameSimilarity tools).map (fun g =>
    match g with
    | [single] => [mkMergedGroup single [] []]
    | _ => greedyMergeLoop cfg g)).flatten

/-- Embedding of `ToolDeduplicationSystem.mergeTools` (yt-researcher.ts lines 80-143):
empty output when disabled or empty input; the clustering approximation for
more than 100 entries; the greedy single pass otherwise. -/
def mergeTools (cfg : DeduplicationConfig) (tools : List ServerTool) : List MergedTool :=
  if cfg.enabled = false ∨ tools.length = 0 then []
  else if tools.length > 100 then mergeToolsWithClustering cfg tools
  else greedyMergeLoop cfg tools

/-- The record returned by `ToolDeduplicationSystem.getStats`. -/
structure DedupStats where
  totalTools : Nat
  mergedGroups : Nat
  reductionPercentage : Rat
  avgConfidence : Rat
deriving DecidableEq, Repr

/-- Embedding of `ToolDeduplicationSystem.getStats` (yt-researcher.ts lines 427-445):
statistics of a fresh `mergeTools` run over the given entries. -/
def getStats (cfg : DeduplicationConfig) (tools : List ServerTool) : DedupStats :=
  let merged := mergeTools cfg tools
  { totalTools := tools.length,
    mergedGroups := (merged.filter (fun t => t.originalTools.length > 1)).length,
    reductionPercentage :=
      if tools.length > 0 then
        (((tools.length : Rat) - (merged.length : Rat)) / (tools.length : Rat)) * 100
      else 0,
    avgConfidence :=
      if merged.length > 0 then
        (merged.foldl (fun s t => s + t.confidence) 0) / (merged.length : Rat)
      else 0 }

/-- Re-entry of a deduplication output into `mergeTools`, treating each
produced merged tool as a singleton `{ serverId; tool }` entry (the reading of
claim C9). -/
def reinjectMergedTools (ms : List MergedTool) : List ServerTool :=
  ms.map (fun m => { serverId := m.serverId, tool := m.toolSurface })

/-- The three-tool input used to analyse claim C9. -/
def c9SchemaA : Json :=
  .obj (.cons "type" (.str "object")
    (.cons "properties" (.obj (.cons "a" (.obj (.cons "type" (.str "string") .nil)) .nil)) .nil))

/-- A schema sharing no property with `c9SchemaA`. -/
def c9SchemaB : Json :=
  .obj (.cons "type" (.str "object")
    (.cons "properties" (.obj (.cons "b" (.obj (.cons "type" (.str "number") .nil)) .nil)) .nil))

/-- Input entries for the C9 counterexample. -/
def c9Input : List ServerTool :=
  [ { serverId := "A", tool := { name := "read", description := some "d", inputSchema := some c9SchemaA } },
    { serverId := "B", tool := { name := "read", description := some "ddddddddd", inputSchema := some c9SchemaA } },
    { serverId := "C", tool := { name := "read", description := some "ddddddddd", inputSchema := some c9SchemaB } } ]

/-- Lookup in an insertion-ordered association list (JavaScript `Map.get`). -/
def mapLookup {β : Type} : List (String × β) → String → Option β
  | [], _ => none
  | (k, v) :: rest, key => if k = key then some v else mapLookup rest key

/-- Update-or-append in an insertion-ordered association list (JavaScript
`Map.set`): an existing key keeps its position, a new key is appended. -/
def mapSet {β : Type} : List (String × β) → String → β → List (String × β)
  | [], key, v => [(key, v)]
  | (k, w) :: rest, key, v =>
      if k = key then (key, v) :: rest else (k, w) :: mapSet rest key v

/-- Removal from an insertion-ordered association list (JavaScript
`Map.delete`). -/
def mapDelete {β : Type} (m : List (String × β)) (key : String) : List (String × β) :=
  m.filter (fun kv => kv.1 ≠ key)

/-- Embedding of `CacheEntry` (caching.ts lines 1-7). -/
structure CacheEntry where
  data : Json
  expiry : Rat
  hitCount : Nat
  lastAccess : Rat
  toolType : String
deriving DecidableEq, Repr

/-- The state of `CachingSystem` (caching.ts lines 20-33): the entry map, the
fixed configuration fields, the two global counters and the per-tool-type TTL
map. There is no per-tool-type request counter in this state. -/
structure CachingSystem where
  cache : List (String × CacheEntry)
  defaultTTL : Rat
  maxSize : Nat
  totalRequests : Nat
  totalHits : Nat
  toolTypeTTL : List (String × Rat)
deriving DecidableEq, Repr

/-- The initial `toolTypeTTL` map (caching.ts lines 27-33). -/
def initToolTypeTTL : List (String × Rat) :=
  [("filesystem", 60000), ("database", 180000), ("network", 120000),
   ("computation", 600000), ("static", 3600000)]

/-- A freshly constructed `CachingSystem`. -/
def initCachingSystem : CachingSystem :=
  { cache := [], defaultTTL := 300000, maxSize := 1000,
    totalRequests := 0, totalHits := 0, toolTypeTTL := initToolTypeTTL }

/-- Embedding of `CachingSystem.get` (caching.ts lines 35-51): counts the request; on a
live entry bumps its hit count and recency and counts the hit; deletes an
expired entry; returns the value or `null`. -/
def CachingSystem.get (s : CachingSystem) (now : Rat) (key : String) :
    Option Json × CachingSystem :=
  let s1 := { s with totalRequests := s.totalRequests + 1 }
  match mapLookup s1.cache key with
  | some entry =>
      if entry.expiry > now then
        let entry2 := { entry with hitCount := entry.hitCount + 1, lastAccess := now }
        (some entry.data,
         { s1 with cache := mapSet s1.cache key entry2, totalHits := s1.totalHits + 1 })
      else
        (none, { s1 with cache := mapDelete s1.cache key })
  | none => (none, s1)

/-- Embedding of `CachingSystem.shouldCache` (caching.ts lines 93-110). Its first argument
is whatever string the caller passes as `toolName` — `executeToolCall` passes
the full cache key — and its second is whatever the caller passes as `params`
— `executeToolCall` passes the tool call result. -/
def shouldCache (toolName : String) (params : Json) : Bool :=
  if strIncludes toolName "random" || strIncludes toolName "uuid" then false
  else if strIncludes toolName "current_time" || strIncludes toolName "now" then false
  else if params.isTruthy && params.isObjectLike then
    if strIncludes (strToLower params.stringify) "timestamp"
        || strIncludes (strToLower params.stringify) "current" then false
    else true
  else true

/-- Embedding of `CachingSystem.getTTLForToolType` (caching.ts lines 89-91):
`toolTypeTTL.get(toolType) || defaultTTL` (a falsy stored TTL also falls back). -/
def CachingSystem.getTTLForToolType (s : CachingSystem) (toolType : String) : Rat :=
  match mapLookup s.toolTypeTTL toolType with
  | some ttl => if ttl = 0 then s.defaultTTL else ttl
  | none => s.defaultTTL

/-- The TTL chosen by `CachingSystem.set`: `customTTL || getTTLForToolType`
(a falsy override, `undefined` or `0`, falls back to the tool-type TTL). -/
def CachingSystem.resolvedTTL (s : CachingSystem) (customTTL : Option Rat)
    (toolType : String) : Rat :=
  match customTTL with
  | some t => if t = 0 then s.getTTLForToolType toolType else t
  | none => s.getTTLForToolType toolType

/-- The scan of `CachingSystem.evictLeastRecentlyUsed` (caching.ts lines
112-126): the key of the first entry whose `lastAccess` is strictly smallest,
starting from `oldestTime = Date.now()` — an entry with
`lastAccess ≥ oldestTime` is never selected. -/
def findOldestKey : List (String × CacheEntry) → Option String → Rat → Option String
  | [], oldestKey, _ => oldestKey
  | (k, e) :: rest, oldestKey, oldestTime =>
      if e.lastAccess < oldestTime then findOldestKey rest (some k) e.lastAccess
      else findOldestKey rest oldestKey oldestTime

/-- Embedding of `CachingSystem.evictLeastRecentlyUsed`: deletes the scan's result, if any. -/
def CachingSystem.evictLeastRecentlyUsed (s : CachingSystem) (now : Rat) : CachingSystem :=
  match findOldestKey s.cache none now with
  | some k => { s with cache := mapDelete s.cache k }
  | none => s

/-- Embedding of `CachingSystem.set` (caching.ts lines 53-71): a no-op when `shouldCache`
rejects the (key, data) pair; otherwise evicts once if the map is at capacity
and inserts the new entry with `expiry = now + ttl`, `hitCount = 0`,
`lastAccess = now`. -/
def CachingSystem.set (s : CachingSystem) (now : Rat) (key : String) (data : Json)
    (customTTL : Option Rat) (toolType : String) : CachingSystem :=
  if shouldCache key data = false then s
  else
    let ttl := s.resolvedTTL customTTL toolType
    let s1 := if s.cache.length ≥ s.maxSize then s.evictLeastRecentlyUsed now else s
    let entry : CacheEntry :=
      { data := data, expiry := now + ttl, hitCount := 0, lastAccess := now,
        toolType := toolType }
    { s1 with cache := mapSet s1.cache key entry }

/-- The aggregation loop of `CachingSystem.getToolTypeMetrics` (caching.ts
lines 196-204): per tool type (in first-seen order over ALL cache entries,
expired ones included) the entry count and the sum of hit counts. -/
def bumpToolType (acc : List (String × Nat × Nat)) (toolType : String) (hits : Nat) :
    List (String × Nat × Nat) :=
  match acc with
  | [] => [(toolType, 1, hits)]
  | (ty, c, sum) :: rest =>
      if ty = toolType then (ty, c + 1, sum + hits) :: rest
      else (ty, c, sum) :: bumpToolType rest toolType hits

/-- Embedding of `CachingSystem.getToolTypeMetrics` (caching.ts lines 193-212): for each
tool type `(count, avgHitCount, hitRate)` where `avgHitCount` is the mean hit
count over all entries of that type and
`hitRate = avgHitCount > 0 ? avgHitCount / totalRequests : 0` — the divisor is
the GLOBAL `totalRequests`, there is no per-tool-type request counter. -/
def CachingSystem.getToolTypeMetrics (s : CachingSystem) :
    List (String × Nat × Rat × Rat) :=
  let agg := s.cache.foldl (fun acc kv => bumpToolType acc kv.2.toolType kv.2.hitCount) []
  agg.map (fun x =>
    let avgHitCount : Rat := (x.2.2 : Rat) / (x.2.1 : Rat)
    (x.1, x.2.1, avgHitCount,
      if avgHitCount > 0 then avgHitCount / (s.totalRequests : Rat) else 0))

/-- Embedding of `CachingSystem.adjustTTL` (caching.ts lines 73-87): grow the TTL by 20%
(cap one hour) above hit rate 0.7, shrink it by 20% (floor one minute) below
hit rate 0.2. -/
def CachingSystem.adjustTTL (s : CachingSystem) (toolType : String) (hitRate : Rat) :
    CachingSystem :=
  let currentTTL := s.getTTLForToolType toolType
  let newTTL :=
    if hitRate > 7 / 10 then ratMinOf (currentTTL * (12 / 10)) 3600000
    else if hitRate < 2 / 10 then ratMaxOf (currentTTL * (8 / 10)) 60000
    else currentTTL
  if newTTL ≠ currentTTL then { s with toolTypeTTL := mapSet s.toolTypeTTL toolType newTTL }
  else s

/-- Embedding of `CachingSystem.updateToolTypeMetricsAndAdjustTTLs` (caching.ts lines
158-163), invoked on every `getStats` call: feeds each tool type's `hitRate`
from `getToolTypeMetrics` into `adjustTTL`. -/
def CachingSystem.updateToolTypeMetricsAndAdjustTTLs (s : CachingSystem) : CachingSystem :=
  s.getToolTypeMetrics.foldl (fun acc x => acc.adjustTTL x.1 x.2.2.2) s

/-- Embedding of `MCPMetaServer.determineToolType` (index.ts lines 605-615). -/
def determineToolType (toolName : String) : String :=
  let name := strToLower toolName
  if strIncludes name "file" || strIncludes name "read" || strIncludes name "write" then
    "filesystem"
  else if strIncludes name "db" || strIncludes name "sql" || strIncludes name "query" then
    "database"
  else if strIncludes name "http" || strIncludes name "api" || strIncludes name "request" then
    "network"
  else if strIncludes name "compute" || strIncludes name "calculate"
      || strIncludes name "process" then "computation"
  else if strIncludes name "static" || strIncludes name "const"
      || strIncludes name "reference" then "static"
  else "default"

/-- The cache key built by `MCPMetaServer.executeToolCall` (index.ts line 550):
`` `${serverId}:${toolName}:${JSON.stringify(args)}` `` — plain
`JSON.stringify`, which keeps the argument object's key insertion order. -/
def cacheKey (serverId toolName : String) (args : Json) : String :=
  serverId ++ ":" ++ toolName ++ ":" ++ args.stringify

/-- The cache write on the success path of `MCPMetaServer.executeToolCall`
(index.ts line 570): `cache.set(cacheKey, result, undefined,
determineToolType(toolName))` — the KEY and the RESULT are what `shouldCache`
inspects. -/
def executeToolCallCacheStore (s : CachingSystem) (now : Rat)
    (serverId toolName : String) (args result : Json) : CachingSystem :=
  s.set now (cacheKey serverId toolName args) result none (determineToolType toolName)

/-- Embedding of `PerformanceMetrics` (index.ts lines 17-23). -/
structure PerformanceMetrics where
  successRate : Rat
  avgResponseTime : Rat
  lastUsed : Rat
  totalCalls : Nat
  failureCount : Nat
deriving DecidableEq, Repr

/-- Embedding of `MCPMetaServer.calculateRecencyScore` (index.ts lines 596-603). -/
def calculateRecencyScore (now lastUsed : Rat) : Rat :=
  let hoursSinceUsed := (now - lastUsed) / (1000 * 60 * 60)
  if hoursSinceUsed < 1 then 1
  else if hoursSinceUsed < 24 then 8 / 10
  else if hoursSinceUsed < 168 then 6 / 10
  else 4 / 10

/-- Embedding of `MCPMetaServer.calculateServerScore` (index.ts lines 580-594): 0.5 for a
tool without metrics or calls, otherwise
`0.5 * successRate + 0.3 * responseScore + 0.2 * recencyScore`. -/
def calculateServerScore (metrics : List (String × List (String × PerformanceMetrics)))
    (now : Rat) (serverId toolName : String) : Rat :=
  let toolMetrics :=
    match mapLookup metrics serverId with
    | none => none
    | some serverMetrics => mapLookup serverMetrics toolName
  match toolMetrics with
  | none => 1 / 2
  | some m =>
      if m.totalCalls = 0 then 1 / 2
      else
        let successScore := m.successRate
        let responseScore := ratMaxOf 0 (1 - m.avgResponseTime / 10000)
        let recencyScore := calculateRecencyScore now m.lastUsed
        successScore * (1 / 2) + responseScore * (3 / 10) + recencyScore * (1 / 5)

/-- One candidate of `handleMergedToolCall`'s routing list: a member's server
id, its unqualified tool name and its computed score. -/
structure ScoredTarget where
  serverId : String
  toolName : String
  score : Rat
deriving DecidableEq, Repr

/-- Stable insertion for the descending sort
`.sort((a, b) => b.score - a.score)`: a later element passes elements of
strictly smaller score only, so equal scores keep their original order. -/
def insertByScoreDesc (x : ScoredTarget) : List ScoredTarget → List ScoredTarget
  | [] => [x]
  | y :: ys => if x.score > y.score then x :: y :: ys else y :: insertByScoreDesc x ys

/-- The stable descending-by-score sort of `handleMergedToolCall`. -/
def sortByScoreDesc (l : List ScoredTarget) : List ScoredTarget :=
  l.foldl (fun acc x => insertByScoreDesc x acc) []

/-- The candidate loop of `MCPMetaServer.handleMergedToolCall` (index.ts lines
521-540): walk the scored candidates in order; skip a candidate whose server
is not connected WITHOUT attempting it; otherwise attempt the call (the
`exec` oracle abstracts `executeToolCall`'s cache probe and remote
invocation); return on the first success, remember the error and continue on
failure; after the last candidate raise the all-failed error. Returns the
list of attempted `(serverId, toolName)` invocations with the outcome. -/
def attemptLoop (toolName : String) (connected : String → Bool)
    (exec : String → String → Except String Json) (lastError : Option String) :
    List ScoredTarget → List (String × String) × Except String Json
  | [] =>
      ([], .error ("All servers failed for merged tool \"" ++ toolName
        ++ "\". Last error: " ++ (match lastError with
          | some e => e
          | none => "undefined")))
  | c :: rest =>
      if connected c.serverId = false then attemptLoop toolName connected exec lastError rest
      else
        match exec c.serverId c.toolName with
        | .ok v => ([(c.serverId, c.toolName)], .ok v)
        | .error e =>
            let p := attemptLoop toolName connected exec (some e) rest
            ((c.serverId, c.toolName) :: p.1, p.2)

/-- Embedding of `MCPMetaServer.handleMergedToolCall` (index.ts lines 506-541): scores every
member of the merged tool, sorts by score descending (stable), and iterates
the WHOLE candidate list through `attemptLoop`. -/
def handleMergedToolCall (toolName : String) (members : List ServerTool)
    (metrics : List (String × List (String × PerformanceMetrics))) (now : Rat)
    (connected : String → Bool) (exec : String → String → Except String Json) :
    List (String × String) × Except String Json :=
  let sorted := sortByScoreDesc (members.map (fun m =>
    { serverId := m.serverId, toolName := m.tool.name,
      score := calculateServerScore metrics now m.serverId m.tool.name }))
  attemptLoop toolName connected exec none sorted

/-- The candidates a claim-C5-style bounded router would attempt: every
connected candidate in order up to and including the first success. -/
def takeThroughFirstSuccess (exec : String → String → Except String Json) :
    List ScoredTarget → List (String × String)
  | [] => []
  | c :: rest =>
      match exec c.serverId c.toolName with
      | .ok _ => [(c.serverId, c.toolName)]
      | .error _ => (c.serverId, c.toolName) :: takeThroughFirstSuccess exec rest

/-- Embedding of `MCPServerConfiguration` (discovery.ts lines 5-10). -/
structure MCPServerConfiguration where
  id : String
  name : String
  command : List String
  description : Option String
deriving DecidableEq, Repr

/-- Embedding of `MCPDiscoverySystem.isValidConfig` (discovery.ts lines 66-68): the ONLY
validation a discovered config undergoes — `id` and `name` must be strings and
`command` an array. Nothing about the command's content is checked. -/
def isValidConfig (config : Json) : Bool :=
  config.isTruthy
  && (match config.getField "id" with | some (.str _) => true | _ => false)
  && (match config.getField "name" with | some (.str _) => true | _ => false)
  && (match config.getField "command" with | some (.arr _) => true | _ => false)

/-- The command `MCPMetaServer.connectToServer` (index.ts lines 98-163) hands
to `StdioClientTransport`: when the id is not already registered, the config's
`command` array exactly as configured — no validation and no sanitization
happen on this path. `none` means no spawn is attempted (duplicate id). -/
def connectToServerSpawnCommand (registeredServerIds : List String)
    (config : MCPServerConfiguration) : Option (List String) :=
  if registeredServerIds.contains config.id then none
  else some config.command

/-- Whether `connectToServer` stores a provider entry for the config: it does
whenever the id is new — also when the spawn or handshake fails (the provider
is then stored as `disconnected`). -/
def connectToServerRegisters (registeredServerIds : List String)
    (config : MCPServerConfiguration) : Bool :=
  ! registeredServerIds.contains config.id

/-- Modelled from the spec: the command-validation whitelist of §6. No
validation code exists under src/ — `connectToServer` spawns unvalidated — so
the spec's whitelist `{node, python, python3, npx, uv, pipx, deno, bun}` is
modelled here from the spec's words to state claim C1. -/
def specAllowedExecutables : List String :=
  ["node", "python", "python3", "npx", "uv", "pipx", "deno", "bun"]

/-- Modelled from the spec: the shell metacharacter class ``;&|`$(){}[]`` of
the §6 command validation (characters given by code point to avoid quoting
issues). -/
def specShellMetachars : List Char :=
  [Char.ofNat 59, Char.ofNat 38, Char.ofNat 124, Char.ofNat 96, Char.ofNat 36,
   Char.ofNat 40, Char.ofNat 41, Char.ofNat 123, Char.ofNat 125,
   Char.ofNat 91, Char.ofNat 93]

/-- Scan for the regex `\s+-` tail: whitespace then (more whitespace then) a
dash. -/
def wsThenDash : List Char → Bool
  | [] => false
  | c :: rest =>
      if c = '-' then true
      else if c.isWhitespace then wsThenDash rest
      else false

/-- Modelled from the spec: the regex `rm\s+-` of the §6 command validation —
some position starts with `rm`, at least one whitespace character, then `-`. -/
def specMatchesRmDash (s : String) : Bool :=
  (s.data.tails).any (fun t =>
    match t with
    | 'r' :: 'm' :: c :: rest => c.isWhitespace && wsThenDash rest
    | _ => false)

/-- Modelled from the spec: whether one command element matches any dangerous
pattern of the §6 command validation (shell metacharacters, `..`, a `/dev/`
prefix, `rm\s+-`, `sudo`). -/
def specDangerousElement (s : String) : Bool :=
  s.data.any (fun c => specShellMetachars.contains c)
  || strIncludes s ".."
  || listStartsWith s.data "/dev/".data
  || specMatchesRmDash s
  || strIncludes s "sudo"

/-- Modelled from the spec: the §6 command validation — reject an empty
command, a non-whitelisted executable, or any dangerous element. -/
def specIsValidCommand (command : List String) : Bool :=
  match command with
  | [] => false
  | exe :: _ =>
      specAllowedExecutables.contains exe
      && command.all (fun el => ! specDangerousElement el)

/-- One upstream-visible cache operation, with its `Date.now()` value. -/
inductive CacheOp where
  | get (now : Rat) (key : String) : CacheOp
  | set (now : Rat) (key : String) (data : Json) (customTTL : Option Rat)
      (toolType : String) : CacheOp
deriving Repr

/-- State transition of one cache operation. -/
def applyCacheOp (s : CachingSystem) : CacheOp → CachingSystem
  | .get now key => (s.get now key).2
  | .set now key data customTTL toolType => s.set now key data customTTL toolType

/-- A sequence of cache operations run against a fresh `CachingSystem`. -/
def runCacheOps (ops : List CacheOp) : CachingSystem :=
  ops.foldl applyCacheOp initCachingSystem

/-- The cache state after the claim-C2 trace: two entries of distinct tool
types inserted at time 0, then two hits on each. -/
def c2Trace : CachingSystem :=
  let s1 := initCachingSystem.set 0 "fs_key" (.str "v1") none "filesystem"
  let s2 := s1.set 0 "db_key" (.str "v2") none "database"
  let s3 := (s2.get 0 "fs_key").2
  let s4 := (s3.get 0 "fs_key").2
  let s5 := (s4.get 0 "db_key").2
  (s5.get 0 "db_key").2

/-- The i-th distinct cache key of the claim-C6 stress sequence. -/
def c6Key (i : Nat) : String :=
  String.mk (List.replicate i 'k')

/-- The i-th insert of the claim-C6 stress sequence, at time 0. -/
def c6Op (i : Nat) : CacheOp :=
  .set 0 (c6Key i) (.str "v") none "default"

/-- A sequence of 1001 inserts of distinct keys, all at time 0: the claim-C6 stress sequence
in which every entry's `lastAccess` equals the eviction scan's starting time. -/
def c6Ops : List CacheOp :=
  (List.range 1001).map c6Op

/-- The entry each insert of the C6 sequence produces: default TTL 300000,
inserted at time 0. -/
def c6Entry : CacheEntry :=
  { data := .str "v", expiry := 300000, hitCount := 0, lastAccess := 0,
    toolType := "default" }

/-- The cache state after the first `n` inserts of the C6 sequence. -/
def c6StateAfter (n : Nat) : CachingSystem :=
  { initCachingSystem with cache := (List.range n).map (fun i => (c6Key i, c6Entry)) }

/-- The default deduplication configuration with the engine disabled. -/
def c10Cfg : DeduplicationConfig :=
  { defaultDedupConfig with enabled := false }

/-- The malicious configuration of the BUG_FIXES_REPORT attack example, in the
record form `connectToServer` receives. -/
def c1EvilConfig : MCPServerConfiguration :=
  { id := "malicious", name := "Evil Server",
    command := ["rm", "-rf", "/tmp/x"], description := none }

/-- The same malicious configuration as the JSON value discovery parses. -/
def c1EvilConfigJson : Json :=
  .obj (.cons "id" (.str "malicious")
    (.cons "name" (.str "Evil Server")
      (.cons "command"
        (.arr (.cons (.str "rm") (.cons (.str "-rf") (.cons (.str "/tmp/x") .nil))))
        .nil)))

/-- Arguments `{"a":1,"b":2}`. -/
def c3ArgsA : Json := .obj (.cons "a" (.num 1) (.cons "b" (.num 2) .nil))

/-- The same JSON value with the keys in the other insertion order. -/
def c3ArgsB : Json := .obj (.cons "b" (.num 2) (.cons "a" (.num 1) .nil))

/-- Arguments `{"timestamp":1}` — lower-cased JSON contains `timestamp`. -/
def c4Args : Json := .obj (.cons "timestamp" (.num 1) .nil)

/-- Five members of a merged tool on five distinct providers. -/
def c5Members : List ServerTool :=
  [ { serverId := "A", tool := { name := "read", description := none, inputSchema := none } },
    { serverId := "B", tool := { name := "read", description := none, inputSchema := none } },
    { serverId := "C", tool := { name := "read", description := none, inputSchema := none } },
    { serverId := "D", tool := { name := "read", description := none, inputSchema := none } },
    { serverId := "E", tool := { name := "read", description := none, inputSchema := none } } ]

/-- A single-entry tool list for the C10 witness. -/
def c10Tools : List ServerTool :=
  [ { serverId := "A", tool := { name := "alpha", description := none, inputSchema := none } } ]

/-- Two thoroughly dissimilar tools for the C9 witness. -/
def c9SingletonInput : List ServerTool :=
  [ { serverId := "A", tool := { name := "alpha", description := none, inputSchema := none } },
    { serverId := "B", tool := { name := "zzzz", description := none, inputSchema := none } } ]

/-- Lookup after update-or-append finds the new value. -/
theorem mapLookup_mapSet_self {β : Type} (m : List (String × β)) (k : String) (v : β) :
    mapLookup (mapSet m k v) k = some v := by
  induction m with
  | nil => simp [mapSet, mapLookup]
  | cons hd tl ih =>
      by_cases h : hd.1 = k
      · simp [mapSet, mapLookup, h]
      · simpa [mapSet, mapLookup, h] using ih

/-- Appending the same prefix preserves and reflects string equality. -/
theorem string_append_left_cancel (pre a b : String) : pre ++ a = pre ++ b ↔ a = b := by
  constructor
  · intro h
    have hd : (pre ++ a).data = (pre ++ b).data := by rw [h]
    rw [String.data_append, String.data_append] at hd
    exact String.ext (List.append_cancel_left hd)
  · intro h; rw [h]

/-- C1. The spec requires command validation (whitelist plus dangerous-pattern
rejection) before spawning, and the repository's BUG_FIXES_REPORT.md documents
it as implemented; but `connectToServer` (index.ts lines 98-163) performs no
validation: the report's own attack configuration passes discovery's
`isValidConfig`, fails the spec's command validation, and is nevertheless
handed verbatim to the spawner, after which the provider is registered. -/
theorem c1_connectToServer_spawns_unvalidated_command :
    isValidConfig c1EvilConfigJson = true
    ∧ specIsValidCommand c1EvilConfig.command = false
    ∧ connectToServerSpawnCommand [] c1EvilConfig = some ["rm", "-rf", "/tmp/x"]
    ∧ connectToServerRegisters [] c1EvilConfig = true := by decide

/-- C2. The cache keeps no per-tool-type request counter, and
`getToolTypeMetrics` divides each tool type's average hit count by the GLOBAL
`totalRequests`: after two hits on a filesystem entry and two on a database
entry (four requests in total), the filesystem hit rate fed to the adaptive
TTL adjustment is 2/4 = 1/2, not the claimed 2/2 = 1. -/
theorem c2_toolType_hitRate_uses_global_requests :
    c2Trace.getToolTypeMetrics
      = [("filesystem", 1, 2, 1 / 2), ("database", 1, 2, 1 / 2)]
    ∧ ((1 : Rat) / 2) ≠ 1 := by decide

/-- C3 (counterexample). `{"a":1,"b":2}` and `{"b":2,"a":1}` are equal as JSON
values, yet `executeToolCall`'s cache key — built with plain `JSON.stringify` —
differs for them, so JSON-equal arguments do NOT yield identical keys. -/
theorem c3_jsonEqual_args_can_yield_distinct_cache_keys :
    Json.jsonEqual c3ArgsA c3ArgsB = true
    ∧ cacheKey "P" "read_file" c3ArgsA ≠ cacheKey "P" "read_file" c3ArgsB := by decide

/-- C3 (amended). The cache key is the providerId/toolName prefix plus the
insertion-order-preserving `JSON.stringify` of the arguments: for a fixed
provider and tool, two argument values receive the same key exactly when their
serializations coincide (keys are NOT canonicalized). -/
theorem c3_cacheKey_determined_by_insertion_order_serialization
    (serverId toolName : String) (a b : Json) :
    cacheKey serverId toolName a = cacheKey serverId toolName b
      ↔ a.stringify = b.stringify := by
  unfold cacheKey
  simp only [String.append_assoc]
  rw [string_append_left_cancel, string_append_left_cancel,
    string_append_left_cancel, string_append_left_cancel]

/-- C4 (counterexample). A call whose ARGUMENTS contain "timestamp" is cached
anyway: `set` inspects the cache key (for random/uuid/current_time/now) and
the RESULT value (for timestamp/current), not the arguments, so the claimed
no-op condition is wrong on this input. -/
theorem c4_timestamp_args_are_still_cached :
    strIncludes (strToLower c4Args.stringify) "timestamp" = true
    ∧ mapLookup
        (executeToolCallCacheStore initCachingSystem 0 "P" "get_data" c4Args (.str "ok")).cache
        (cacheKey "P" "get_data" c4Args) ≠ none := by decide

/-- C4 (amended). `set(key, data, customTTL?, toolType)` is a no-op exactly
when `shouldCache(key, data)` rejects — the tested strings are the full cache
key and the serialized RESULT value; otherwise the entry is stored under the
key with expiry `now + (customTTL || typeTTL(toolType))`, fresh hit count and
`lastAccess = now`. -/
theorem c4_set_noop_iff_shouldCache_rejects_key_and_result
    (s : CachingSystem) (now : Rat) (key : String) (data : Json)
    (customTTL : Option Rat) (toolType : String) :
    (shouldCache key data = false → s.set now key data customTTL toolType = s)
    ∧ (shouldCache key data = true →
        mapLookup (s.set now key data customTTL toolType).cache key
          = some { data := data, expiry := now + s.resolvedTTL customTTL toolType,
                   hitCount := 0, lastAccess := now, toolType := toolType }) := by
  constructor
  · intro h
    simp [CachingSystem.set, h]
  · intro h
    simp [CachingSystem.set, h, mapLookup_mapSet_self]

/-- C4 (witness): a storable pair is indeed inserted. -/
theorem c4_set_noop_iff_shouldCache_rejects_key_and_result_witness :
    shouldCache "k" (.str "ok") = true
    ∧ mapLookup (initCachingSystem.set 5 "k" (.str "ok") none "default").cache "k"
        = some { data := .str "ok",
                 expiry := 5 + initCachingSystem.resolvedTTL none "default",
                 hitCount := 0, lastAccess := 5, toolType := "default" } :=
  ⟨by decide,
   (c4_set_noop_iff_shouldCache_rejects_key_and_result
      initCachingSystem 5 "k" (.str "ok") none "default").2 (by decide)⟩

/-- The attempted candidates of the merged-call loop are exactly the connected
candidates in order, cut after the first success. -/
theorem attemptLoop_attempts_eq (toolName : String) (connected : String → Bool)
    (exec : String → String → Except String Json) :
    ∀ (l : List ScoredTarget) (lastError : Option String),
      (attemptLoop toolName connected exec lastError l).1
        = takeThroughFirstSuccess exec (l.filter (fun c => connected c.serverId)) := by
  intro l
  induction l with
  | nil => intro lastError; simp [attemptLoop, takeThroughFirstSuccess]
  | cons c rest ih =>
      intro lastError
      by_cases hc : connected c.serverId
      · cases hexec : exec c.serverId c.toolName with
        | ok v => simp [attemptLoop, hc, hexec, List.filter_cons, takeThroughFirstSuccess]
        | error e =>
            simp [attemptLoop, hc, hexec, List.filter_cons, takeThroughFirstSuccess, ih]
      · simp [attemptLoop, hc, List.filter_cons, ih]

/-- C5 (amended). `handleMergedToolCall` ranks ALL members by the scoring
function (stable descending sort) and attempts every connected candidate in
rank order until one succeeds — there is no cap of four: the attempted
invocations are the connected candidates up to and including the first
success, however many that is. -/
theorem c5_all_connected_candidates_attempted_in_score_order
    (toolName : String) (members : List ServerTool)
    (metrics : List (String × List (String × PerformanceMetrics))) (now : Rat)
    (connected : String → Bool) (exec : String → String → Except String Json) :
    (handleMergedToolCall toolName members metrics now connected exec).1
      = takeThroughFirstSuccess exec
          ((sortByScoreDesc (members.map (fun m =>
              { serverId := m.serverId, toolName := m.tool.name,
                score := calculateServerScore metrics now m.serverId m.tool.name }))).filter
            (fun c => connected c.serverId)) := by
  unfold handleMergedToolCall
  exact attemptLoop_attempts_eq toolName connected exec _ none

/-- C5 (counterexample). Five connected members that all fail: all five are
attempted, refuting the claim that at most four (primary plus three
fallbacks) are ever invoked. -/
theorem c5_five_connected_failing_members_all_attempted :
    ((handleMergedToolCall "read" c5Members [] 0 (fun _ => true)
        (fun _ _ => .error "boom")).1).length = 5
    ∧ ¬ (((handleMergedToolCall "read" c5Members [] 0 (fun _ => true)
        (fun _ _ => .error "boom")).1).length ≤ 4) := by decide

/-- C7. `calculateStringSimilarity` returns 0 for two empty strings — the
falsy guard `if (!str1 || !str2) return 0` fires before the equality check —
even though its own `jaroSimilarity` defines the empty/empty case as 1, so
`sim(a,a) = 1` fails at the empty string and the spec's `sim("","") = 1` is
not what the code computes. -/
theorem c7_empty_empty_similarity_is_zero :
    calculateStringSimilarity "" "" = 0 ∧ jaroSimilarity [] [] = 1 := by decide

/-- C8 (counterexample). The computed similarity of "read_file" and
"read_files" is not within 0.001 of 0.974. -/
theorem c8_read_file_similarity_outside_claimed_band :
    ¬ (974 / 1000 - 1 / 1000 ≤ calculateStringSimilarity "read_file" "read_files"
       ∧ calculateStringSimilarity "read_file" "read_files" ≤ 974 / 1000 + 1 / 1000) := by
  decide

/-- C8 (amended). The Jaro-Winkler similarity of "read_file" and "read_files"
as computed by `calculateStringSimilarity` is exactly 0.98: Jaro 29/30 (nine
matches, no transpositions) plus the four-character prefix bonus. -/
theorem c8_read_file_similarity_is_098 :
    calculateStringSimilarity "read_file" "read_files" = 49 / 50
    ∧ (49 : Rat) / 50 = 98 / 100 := by decide

/-- C10. With deduplication disabled and a non-empty tool list, `mergeTools`
returns the empty list, so `getStats` reports zero merged groups, zero average
confidence and a reduction percentage of 100. -/
theorem c10_disabled_stats_report_full_reduction
    (cfg : DeduplicationConfig) (tools : List ServerTool)
    (hdis : cfg.enabled = false) (hne : tools ≠ []) :
    getStats cfg tools
      = { totalTools := tools.length, mergedGroups := 0,
          reductionPercentage := 100, avgConfidence := 0 } := by
  have hmerge : mergeTools cfg tools = [] := by
    unfold mergeTools
    rw [if_pos (Or.inl hdis)]
  have hpos : 0 < tools.length := List.length_pos.mpr hne
  have hcast : (tools.length : Rat) ≠ 0 := Nat.cast_ne_zero.mpr (Nat.pos_iff_ne_zero.mp hpos)
  unfold getStats
  rw [hmerge]
  simp only [List.filter_nil, List.length_nil, List.foldl_nil, Nat.cast_zero,
    DedupStats.mk.injEq, gt_iff_lt, hpos, if_pos, lt_irrefl, if_neg, sub_zero,
    true_and, and_true]
  rw [div_self hcast, one_mul]
  exact ⟨rfl, by simp⟩

/-- C10 (witness): a concrete disabled configuration over one tool. -/
theorem c10_disabled_stats_report_full_reduction_witness :
    c10Cfg.enabled = false ∧ c10Tools ≠ []
    ∧ getStats c10Cfg c10Tools
        = { totalTools := 1, mergedGroups := 0,
            reductionPercentage := 100, avgConfidence := 0 } :=
  ⟨by decide, by decide,
   c10_disabled_stats_report_full_reduction c10Cfg c10Tools (by decide) (by decide)⟩

/-- A singleton merge group re-enters deduplication as exactly its original
entry. -/
theorem reinject_singleton (t : ServerTool) :
    ({ serverId := (mkMergedGroup t [] []).serverId,
       tool := (mkMergedGroup t [] []).toolSurface } : ServerTool) = t := by
  obtain ⟨sid, nm, ds, sch⟩ := t
  rfl

/-- When every group of a greedy pass is a singleton, re-entering its output
yields the original worklist unchanged. -/
theorem reinject_greedyMergeAux (cfg : DeduplicationConfig) :
    ∀ (fuel : Nat) (ts : List ServerTool), ts.length ≤ fuel →
      (∀ m ∈ greedyMergeAux cfg fuel ts, m.originalTools.length = 1) →
      reinjectMergedTools (greedyMergeAux cfg fuel ts) = ts := by
  intro fuel
  induction fuel with
  | zero =>
      intro ts hlen _
      have hts : ts = [] := List.length_eq_zero.mp (Nat.le_zero.mp hlen)
      subst hts
      rfl
  | succ fuel ih =>
      intro ts hlen hsing
      cases ts with
      | nil => rfl
      | cons t rest =>
          have hunfold : greedyMergeAux cfg (fuel + 1) (t :: rest)
              = mkMergedGroup t (rest.filter (fun u => reachesThreshold cfg t u))
                  ((rest.filter (fun u => reachesThreshold cfg t u)).map
                    (fun u => analyzeSimilarity cfg t.tool u.tool))
                :: greedyMergeAux cfg fuel (rest.filter (fun u => ! reachesThreshold cfg t u)) :=
            rfl
          have hhead : (mkMergedGroup t (rest.filter (fun u => reachesThreshold cfg t u))
              ((rest.filter (fun u => reachesThreshold cfg t u)).map
                (fun u => analyzeSimilarity cfg t.tool u.tool))).originalTools.length = 1 := by
            apply hsing
            rw [hunfold]
            exact List.mem_cons_self _ _
          have hattached : rest.filter (fun u => reachesThreshold cfg t u) = [] := by
          
            cases hA : rest.filter (fun u => reachesThreshold cfg t u) with
            | nil => rfl
            | cons a as =>
                rw [hA] at hhead
                simp [mkMergedGroup] at hhead
          have hremaining : rest.filter (fun u => ! reachesThreshold cfg t u) = rest := by
            have hall := List.filter_eq_nil_iff.mp hattached
            apply List.filter_eq_self.mpr
            intro u hu
            simp [hall u hu]
          have hlen2 : rest.length ≤ fuel := by
            simp only [List.length_cons] at hlen
            omega
          rw [hunfold, hattached, hremaining] at hsing
          rw [hunfold, hattached, hremaining]
          have htail : reinjectMergedTools (greedyMergeAux cfg fuel rest) = rest := by
            apply ih rest hlen2
            intro m hm
            exact hsing m (List.mem_cons_of_mem _ hm)
          calc reinjectMergedTools (mkMergedGroup t [] [] :: greedyMergeAux cfg fuel rest)
              = { serverId := (mkMergedGroup t [] []).serverId,
                  tool := (mkMergedGroup t [] []).toolSurface }
                :: reinjectMergedTools (greedyMergeAux cfg fuel rest) := rfl
            _ = t :: rest := by rw [htail, reinject_singleton]

/-- C9 (amended). Deduplication is idempotent when the first pass merges
nothing: for an input of at most 100 entries all of whose output groups are
singletons, feeding the output back into `mergeTools` (each merged tool as a
singleton entry) reproduces the first output exactly. (In general it is NOT
idempotent — see the accompanying counterexample, where a merged tool's
rewritten description lets a second pass merge further.) -/
theorem c9_dedup_idempotent_when_first_pass_merges_nothing
    (cfg : DeduplicationConfig) (tools : List ServerTool)
    (hsmall : tools.length ≤ 100)
    (hsing : ∀ m ∈ mergeTools cfg tools, m.originalTools.length = 1) :
    mergeTools cfg (reinjectMergedTools (mergeTools cfg tools)) = mergeTools cfg tools := by
  by_cases hdis : cfg.enabled = false ∨ tools.length = 0
  · have h1 : mergeTools cfg tools = [] := by
      unfold mergeTools
      rw [if_pos hdis]
    rw [h1]
    unfold mergeTools
    have hnil : (reinjectMergedTools ([] : List MergedTool)).length = 0 := rfl
    rw [if_pos (Or.inr hnil)]
  · have hgr : mergeTools cfg tools = greedyMergeAux cfg tools.length tools := by
      unfold mergeTools
      rw [if_neg hdis, if_neg (by omega : ¬ tools.length > 100)]
      rfl
    have hrein : reinjectMergedTools (mergeTools cfg tools) = tools := by
      rw [hgr]
      exact reinject_greedyMergeAux cfg tools.length tools le_rfl
        (fun m hm => hsing m (hgr ▸ hm))
    rw [hrein]

/-- C9 (witness): two thoroughly dissimilar tools stay two singletons, and a
second pass reproduces them. -/
theorem c9_dedup_idempotent_when_first_pass_merges_nothing_witness :
    c9SingletonInput.length ≤ 100
    ∧ (∀ m ∈ mergeTools defaultDedupConfig c9SingletonInput, m.originalTools.length = 1)
    ∧ mergeTools defaultDedupConfig
        (reinjectMergedTools (mergeTools defaultDedupConfig c9SingletonInput))
      = mergeTools defaultDedupConfig c9SingletonInput :=
  ⟨by decide, by decide,
   c9_dedup_idempotent_when_first_pass_merges_nothing defaultDedupConfig c9SingletonInput
     (by decide) (by decide)⟩

/-- C9 (counterexample). On three tools named "read" — descriptions "d",
"ddddddddd", "ddddddddd" and the third with a disjoint schema — the first pass
yields two tools (a merged pair and a singleton); feeding that output back
merges further down to one tool, because merging rewrote the first group's
description. The singleton's surface is present after one pass and gone after
two, so the two passes do not produce the same set. -/
theorem c9_second_dedup_pass_merges_further :
    (mergeTools defaultDedupConfig c9Input).length = 2
    ∧ (mergeTools defaultDedupConfig
        (reinjectMergedTools (mergeTools defaultDedupConfig c9Input))).length = 1
    ∧ ((mergeTools defaultDedupConfig c9Input).map MergedTool.toolSurface).contains
        { name := "read", description := some "ddddddddd", inputSchema := some c9SchemaB }
        = true
    ∧ ((mergeTools defaultDedupConfig
          (reinjectMergedTools (mergeTools defaultDedupConfig c9Input))).map
        MergedTool.toolSurface).contains
        { name := "read", description := some "ddddddddd", inputSchema := some c9SchemaB }
        = false := by decide

/-- A pattern starting with a character absent from a constant-character
string never occurs in it. -/
theorem listContainsSeg_replicate_false (c p : Char) (ps : List Char) (hne : p ≠ c) :
    ∀ n : Nat, listContainsSeg (List.replicate n c) (p :: ps) = false := by
  intro n
  induction n with
  | zero => simp [listContainsSeg]
  | succ n ih =>
      simp only [List.replicate_succ, listContainsSeg, listStartsWith, ih]
      simp [hne]

/-- Every key of the C6 sequence passes `shouldCache` with the stored string
value. -/
theorem shouldCache_c6Key (n : Nat) : shouldCache (c6Key n) (.str "v") = true := by
  have h1 : strIncludes (c6Key n) "random" = false :=
    listContainsSeg_replicate_false 'k' 'r' _ (by decide) n
  have h2 : strIncludes (c6Key n) "uuid" = false :=
    listContainsSeg_replicate_false 'k' 'u' _ (by decide) n
  have h3 : strIncludes (c6Key n) "current_time" = false :=
    listContainsSeg_replicate_false 'k' 'c' _ (by decide) n
  have h4 : strIncludes (c6Key n) "now" = false :=
    listContainsSeg_replicate_false 'k' 'n' _ (by decide) n
  simp [shouldCache, h1, h2, h3, h4, Json.isTruthy, Json.isObjectLike]

/-- JavaScript `Map.set` on an absent key appends the binding. -/
theorem mapSet_fresh {β : Type} (m : List (String × β)) (k : String) (v : β)
    (h : mapLookup m k = none) : mapSet m k v = m ++ [(k, v)] := by
  induction m with
  | nil => rfl
  | cons hd tl ih =>
      obtain ⟨k1, v1⟩ := hd
      by_cases hk : k1 = k
      · rw [mapLookup, if_pos hk] at h
        exact absurd h (by simp)
      · rw [mapLookup, if_neg hk] at h
        rw [mapSet, if_neg hk, ih h]
        rfl

/-- The eviction scan returns its accumulator when no entry is strictly older
than the running oldest time. -/
theorem findOldestKey_of_not_older :
    ∀ (l : List (String × CacheEntry)) (acc : Option String) (t : Rat),
      (∀ kv ∈ l, ¬ kv.2.lastAccess < t) → findOldestKey l acc t = acc := by
  intro l
  induction l with
  | nil => intro acc t _; rfl
  | cons hd tl ih =>
      intro acc t h
      obtain ⟨k, e⟩ := hd
      rw [findOldestKey, if_neg (h (k, e) (List.mem_cons_self _ _))]
      exact ih acc t (fun kv hm => h kv (List.mem_cons_of_mem _ hm))

/-- The C6 keys are pairwise distinct. -/
theorem c6Key_injective {i j : Nat} (h : c6Key i = c6Key j) : i = j := by
  have hlen := congrArg (fun s => s.data.length) h
  simpa [c6Key] using hlen

/-- The next C6 key is absent from the cache built from the previous ones. -/
theorem c6_fresh_key (i : Nat) :
    ∀ (l : List Nat), (∀ j ∈ l, j ≠ i) →
      mapLookup (l.map (fun j => (c6Key j, c6Entry))) (c6Key i) = none := by
  intro l
  induction l with
  | nil => intro _; rfl
  | cons j rest ih =>
      intro h
      rw [List.map_cons, mapLookup,
        if_neg (fun heq => h j (List.mem_cons_self _ _) (c6Key_injective heq))]
      exact ih (fun a ha => h a (List.mem_cons_of_mem _ ha))

/-- Below capacity, the n-th C6 insert extends the cache by exactly its entry. -/
theorem c6_step (n : Nat) (hn : n < 1000) :
    applyCacheOp (c6StateAfter n) (c6Op n) = c6StateAfter (n + 1) := by
  have hfresh : mapLookup ((List.range n).map (fun j => (c6Key j, c6Entry))) (c6Key n) = none :=
    c6_fresh_key n (List.range n) (fun j hj => Nat.ne_of_lt (List.mem_range.mp hj))
  have hsc : ¬ (shouldCache (c6Key n) (.str "v") = false) := by
    simp [shouldCache_c6Key]
  have hcap : ¬ ((c6StateAfter n).cache.length ≥ (c6StateAfter n).maxSize) := by
    simp only [c6StateAfter, initCachingSystem, List.length_map, List.length_range]
    omega
  show (c6StateAfter n).set 0 (c6Key n) (.str "v") none "default" = c6StateAfter (n + 1)
  unfold CachingSystem.set
  rw [if_neg hsc, if_neg hcap]
  show { cache := mapSet (c6StateAfter n).cache (c6Key n)
           { data := Json.str "v", expiry := 0 + (c6StateAfter n).resolvedTTL none "default",
             hitCount := 0, lastAccess := 0, toolType := "default" },
         defaultTTL := (c6StateAfter n).defaultTTL, maxSize := (c6StateAfter n).maxSize,
         totalRequests := (c6StateAfter n).totalRequests, totalHits := (c6StateAfter n).totalHits,
         toolTypeTTL := (c6StateAfter n).toolTypeTTL } = c6StateAfter (n + 1)
  have hcache : (c6StateAfter n).cache = (List.range n).map (fun j => (c6Key j, c6Entry)) := rfl
  rw [hcache, mapSet_fresh _ _ _ hfresh]
  have hres : (c6StateAfter n).resolvedTTL none "default" = 300000 := rfl
  have hexp : (0 : Rat) + (c6StateAfter n).resolvedTTL none "default" = 300000 := by
    rw [hres, zero_add]
  rw [hexp]
  simp [c6StateAfter, List.range_succ, c6Entry]

/-- The first n C6 inserts (n ≤ 1000) build exactly the n-entry state. -/
theorem c6_runOps_eq : ∀ n : Nat, n ≤ 1000 →
    runCacheOps ((List.range n).map c6Op) = c6StateAfter n := by
  intro n
  induction n with
  | zero => intro _; rfl
  | succ n ih =>
      intro h
      show ((List.range (n + 1)).map c6Op).foldl applyCacheOp initCachingSystem
        = c6StateAfter (n + 1)
      rw [List.range_succ, List.map_append, List.foldl_append]
      rw [show ((List.range n).map c6Op).foldl applyCacheOp initCachingSystem
          = c6StateAfter n from ih (Nat.le_of_succ_le h)]
      show applyCacheOp (c6StateAfter n) (c6Op n) = c6StateAfter (n + 1)
      exact c6_step n (by omega)

/-- Eviction leaves `maxSize` untouched. -/
theorem evict_maxSize (s : CachingSystem) (now : Rat) :
    (s.evictLeastRecentlyUsed now).maxSize = s.maxSize := by
  unfold CachingSystem.evictLeastRecentlyUsed
  cases findOldestKey s.cache none now <;> rfl

/-- The operation `set` leaves `maxSize` untouched. -/
theorem set_maxSize (s : CachingSystem) (now : Rat) (key : String) (data : Json)
    (customTTL : Option Rat) (toolType : String) :
    (s.set now key data customTTL toolType).maxSize = s.maxSize := by
  unfold CachingSystem.set
  by_cases h : shouldCache key data = false
  · rw [if_pos h]
  · rw [if_neg h]
    by_cases hc : s.cache.length ≥ s.maxSize
    · rw [if_pos hc]
      exact evict_maxSize s now
    · rw [if_neg hc]

/-- At time 0, the full 1000-entry C6 state evicts nothing: every entry's
`lastAccess` equals the scan's starting `oldestTime`, and the scan only
accepts strictly older entries. -/
theorem c6_evict_noop : (c6StateAfter 1000).evictLeastRecentlyUsed 0 = c6StateAfter 1000 := by
  unfold CachingSystem.evictLeastRecentlyUsed
  rw [findOldestKey_of_not_older _ none 0 ?hnotolder]
  case hnotolder =>
    intro kv hkv
    have hmem : kv ∈ (List.range 1000).map (fun j => (c6Key j, c6Entry)) := hkv
    obtain ⟨i, _, rfl⟩ := List.mem_map.mp hmem
    exact lt_irrefl 0

/-- C6 (counterexample). Running 1001 same-timestamp inserts of distinct keys
leaves 1001 entries in a cache whose `maxSize` is 1000: with every
`lastAccess` equal to `Date.now()`, `evictLeastRecentlyUsed` finds no strictly
older entry and evicts nothing, so the bound fails — the final operation is a
completed `set` after which size exceeds `maxSize`. -/
theorem c6_equal_timestamp_inserts_exceed_maxSize :
    (runCacheOps c6Ops).cache.length = 1001
    ∧ (runCacheOps c6Ops).maxSize = 1000
    ∧ ¬ ((runCacheOps c6Ops).cache.length ≤ (runCacheOps c6Ops).maxSize) := by
  have hfresh : mapLookup ((List.range 1000).map (fun j => (c6Key j, c6Entry))) (c6Key 1000)
      = none :=
    c6_fresh_key 1000 (List.range 1000) (fun j hj => Nat.ne_of_lt (List.mem_range.mp hj))
  have hsc : ¬ (shouldCache (c6Key 1000) (.str "v") = false) := by
    simp [shouldCache_c6Key]
  have hcap : (c6StateAfter 1000).cache.length ≥ (c6StateAfter 1000).maxSize := by
    simp [c6StateAfter, initCachingSystem]
  have hfin : runCacheOps c6Ops
      = (c6StateAfter 1000).set 0 (c6Key 1000) (.str "v") none "default" := by
    show ((List.range 1001).map c6Op).foldl applyCacheOp initCachingSystem = _
    rw [show (1001 : Nat) = 1000 + 1 from rfl, List.range_succ, List.map_append,
      List.foldl_append]
    rw [show ((List.range 1000).map c6Op).foldl applyCacheOp initCachingSystem
        = c6StateAfter 1000 from c6_runOps_eq 1000 le_rfl]
    rfl
  have hsetcache : ((c6StateAfter 1000).set 0 (c6Key 1000) (.str "v") none "default").cache
      = (List.range 1000).map (fun j => (c6Key j, c6Entry))
        ++ [(c6Key 1000,
             { data := Json.str "v",
               expiry := 0 + (c6StateAfter 1000).resolvedTTL none "default",
               hitCount := 0, lastAccess := 0, toolType := "default" })] := by
    unfold CachingSystem.set
    rw [if_neg hsc, if_pos hcap, c6_evict_noop]
    show mapSet (c6StateAfter 1000).cache (c6Key 1000) _ = _
    rw [show (c6StateAfter 1000).cache
        = (List.range 1000).map (fun j => (c6Key j, c6Entry)) from rfl]
    rw [mapSet_fresh _ _ _ hfresh]
  have hlen : (runCacheOps c6Ops).cache.length = 1001 := by
    rw [hfin, hsetcache]
    simp
  have hmax : (runCacheOps c6Ops).maxSize = 1000 := by
    rw [hfin, set_maxSize]
    rfl
  refine ⟨hlen, hmax, ?_⟩
  rw [hlen, hmax]
  omega

/-- JavaScript `Map.set` grows the map by one binding exactly when the key is new. -/
theorem length_mapSet {β : Type} (m : List (String × β)) (k : String) (v : β) :
    (mapSet m k v).length
      = if (mapLookup m k).isSome then m.length else m.length + 1 := by
  induction m with
  | nil => simp [mapSet, mapLookup]
  | cons hd tl ih =>
      obtain ⟨k1, v1⟩ := hd
      by_cases hk : k1 = k
      · simp [mapSet, mapLookup, hk]
      · rw [mapSet, if_neg hk, List.length_cons, ih, mapLookup, if_neg hk,
          List.length_cons]
        by_cases hs : (mapLookup tl k).isSome
        · rw [if_pos hs, if_pos hs]
        · rw [if_neg hs, if_neg hs]

/-- Deleting a present key strictly shrinks the map. -/
theorem length_mapDelete_lt {β : Type} (m : List (String × β)) (k : String)
    (h : (mapLookup m k).isSome) : (mapDelete m k).length < m.length := by
  induction m with
  | nil => simp [mapLookup] at h
  | cons hd tl ih =>
      obtain ⟨k1, v1⟩ := hd
      by_cases hk : k1 = k
      · have hdel : mapDelete ((k1, v1) :: tl) k = mapDelete tl k := by
          simp [mapDelete, List.filter_cons, hk]
        rw [hdel, List.length_cons]
        exact Nat.lt_succ_of_le (List.length_filter_le _ _)
      · have hs : (mapLookup tl k).isSome := by
          rw [mapLookup, if_neg hk] at h
          exact h
        have hdel : mapDelete ((k1, v1) :: tl) k = (k1, v1) :: mapDelete tl k := by
          simp [mapDelete, List.filter_cons, hk]
        rw [hdel, List.length_cons, List.length_cons]
        exact Nat.succ_lt_succ (ih hs)

/-- A present binding makes the lookup succeed. -/
theorem mapLookup_isSome_of_mem {β : Type} (m : List (String × β)) (k : String) (v : β)
    (h : (k, v) ∈ m) : (mapLookup m k).isSome := by
  induction m with
  | nil => simp at h
  | cons hd tl ih =>
      obtain ⟨k1, v1⟩ := hd
      by_cases hk : k1 = k
      · simp [mapLookup, hk]
      · rw [mapLookup, if_neg hk]
        rcases List.mem_cons.mp h with heq | hmem
        · cases heq
          exact absurd rfl hk
        · exact ih hmem

/-- A key produced by the eviction scan belongs to the scanned list (or was
the accumulator). -/
theorem findOldestKey_mem :
    ∀ (l : List (String × CacheEntry)) (acc : Option String) (t : Rat) (k : String),
      findOldestKey l acc t = some k → (∃ e, (k, e) ∈ l) ∨ acc = some k := by
  intro l
  induction l with
  | nil => intro acc t k h; exact Or.inr h
  | cons hd tl ih =>
      intro acc t k h
      obtain ⟨k1, e1⟩ := hd
      rw [findOldestKey] at h
      by_cases hlt : e1.lastAccess < t
      · rw [if_pos hlt] at h
        rcases ih (some k1) e1.lastAccess k h with ⟨e, he⟩ | heq
        · exact Or.inl ⟨e, List.mem_cons_of_mem _ he⟩
        · cases Option.some.inj heq
          exact Or.inl ⟨e1, List.mem_cons_self _ _⟩
      · rw [if_neg hlt] at h
        rcases ih acc t k h with ⟨e, he⟩ | heq
        · exact Or.inl ⟨e, List.mem_cons_of_mem _ he⟩
        · exact Or.inr heq

/-- The eviction scan never loses a some-accumulator. -/
theorem findOldestKey_isSome_acc :
    ∀ (l : List (String × CacheEntry)) (k0 : String) (t : Rat),
      (findOldestKey l (some k0) t).isSome := by
  intro l
  induction l with
  | nil => intro k0 t; rfl
  | cons hd tl ih =>
      intro k0 t
      obtain ⟨k1, e1⟩ := hd
      rw [findOldestKey]
      by_cases hlt : e1.lastAccess < t
      · rw [if_pos hlt]; exact ih k1 e1.lastAccess
      · rw [if_neg hlt]; exact ih k0 t

/-- A strictly older entry guarantees the eviction scan returns a key. -/
theorem findOldestKey_isSome :
    ∀ (l : List (String × CacheEntry)) (acc : Option String) (t : Rat),
      (∃ kv ∈ l, kv.2.lastAccess < t) → (findOldestKey l acc t).isSome := by
  intro l
  induction l with
  | nil => intro acc t h; simp at h
  | cons hd tl ih =>
      intro acc t h
      obtain ⟨k1, e1⟩ := hd
      rw [findOldestKey]
      by_cases hlt : e1.lastAccess < t
      · rw [if_pos hlt]; exact findOldestKey_isSome_acc tl k1 e1.lastAccess
      · rw [if_neg hlt]
        obtain ⟨kv, hkv, hkvlt⟩ := h
        rcases List.mem_cons.mp hkv with rfl | hmem
        · exact absurd hkvlt hlt
        · exact ih acc t ⟨kv, hmem, hkvlt⟩

/-- Eviction never grows the cache. -/
theorem evict_cache_length_le (s : CachingSystem) (now : Rat) :
    (s.evictLeastRecentlyUsed now).cache.length ≤ s.cache.length := by
  unfold CachingSystem.evictLeastRecentlyUsed
  cases h : findOldestKey s.cache none now with
  | none => exact le_rfl
  | some k => exact List.length_filter_le _ _

/-- With a strictly older entry present, eviction strictly shrinks the cache. -/
theorem evict_cache_length_lt (s : CachingSystem) (now : Rat)
    (h : ∃ kv ∈ s.cache, kv.2.lastAccess < now) :
    (s.evictLeastRecentlyUsed now).cache.length < s.cache.length := by
  unfold CachingSystem.evictLeastRecentlyUsed
  have hsome := findOldestKey_isSome s.cache none now h
  cases hk : findOldestKey s.cache none now with
  | none => rw [hk] at hsome; simp at hsome
  | some k =>
      rcases findOldestKey_mem s.cache none now k hk with ⟨e, he⟩ | habs
      · exact length_mapDelete_lt _ _ (mapLookup_isSome_of_mem _ _ _ he)
      · simp at habs

/-- C6 (amended). After `set`, the cache size stays within `maxSize` provided
that, when the cache is at capacity, either the key is already present or
some entry's `lastAccess` is strictly earlier than the current time (so the
eviction scan can fire). With all timestamps equal the scan finds nothing —
see the accompanying counterexample — so the unconditional claim fails. -/
theorem c6_set_preserves_size_bound_with_strictly_older_entry
    (s : CachingSystem) (now : Rat) (key : String) (data : Json)
    (customTTL : Option Rat) (toolType : String)
    (hbound : s.cache.length ≤ s.maxSize)
    (hroom : s.cache.length < s.maxSize ∨ (mapLookup s.cache key).isSome
      ∨ ∃ kv ∈ s.cache, kv.2.lastAccess < now) :
    (s.set now key data customTTL toolType).cache.length ≤ s.maxSize := by
  unfold CachingSystem.set
  by_cases hsc : shouldCache key data = false
  · rw [if_pos hsc]
    exact hbound
  · rw [if_neg hsc]
    by_cases hcap : s.cache.length ≥ s.maxSize
    · rw [if_pos hcap]
      show (mapSet (s.evictLeastRecentlyUsed now).cache key _).length ≤ s.maxSize
      rw [length_mapSet]
      by_cases hold : ∃ kv ∈ s.cache, kv.2.lastAccess < now
      · have hlt := evict_cache_length_lt s now hold
        split
        · omega
        · omega
      · have hkey : (mapLookup s.cache key).isSome := by
          rcases hroom with h1 | h2 | h3
          · omega
          · exact h2
          · exact absurd h3 hold
        have hnoev : s.evictLeastRecentlyUsed now = s := by
          unfold CachingSystem.evictLeastRecentlyUsed
          rw [findOldestKey_of_not_older _ none now
            (fun kv hkv hlt => hold ⟨kv, hkv, hlt⟩)]
        rw [hnoev, if_pos hkey]
        exact hbound
    · rw [if_neg hcap]
      show (mapSet s.cache key _).length ≤ s.maxSize
      rw [length_mapSet]
      split
      · exact hbound
      · omega

/-- C6 (witness): inserting into a cache below capacity respects the bound. -/
theorem c6_set_preserves_size_bound_with_strictly_older_entry_witness :
    initCachingSystem.cache.length ≤ initCachingSystem.maxSize
    ∧ initCachingSystem.cache.length < initCachingSystem.maxSize
    ∧ (initCachingSystem.set 0 "a" (.str "v") none "default").cache.length
        ≤ initCachingSystem.maxSize :=
  ⟨by decide, by decide,
   c6_set_preserves_size_bound_with_strictly_older_entry initCachingSystem 0 "a"
     (.str "v") none "default" (by decide) (Or.inl (by decide))⟩
